import Mathlib

/-!
Shallow embedding of the Invoice Reconciliation Engine of the `bba`
repository (src/services/emailService.ts `InventoryService`, the scanner
component's `getMatch` helper and the inventory table's currency
conversion), together with theorems settling the claims about it.

Conventions of the embedding:
* JavaScript numbers are embedded as `Int` (quantities, stock amounts)
  and `ℚ` (prices, exchange rates); timestamps and row ids are `Nat`.
* The Supabase store is a `DB` record (product rows, supplier rows,
  activity-log rows, an id counter for inserted rows, and the current
  time used for `new Date().toISOString()`).  Row order of a `select`
  is the list order of the embedding.
* Postgres `ILIKE` is embedded by `likeCI` (case-insensitive `LIKE`
  with `%`/`_` wildcards, no escape handling).  `.single()` returns a
  row exactly when the query yields exactly one row, and `null`
  otherwise (PostgREST returns an error object, which the source
  discards, both for zero and for several rows).
* JavaScript truthiness tests (`x || y`) on strings, numbers and
  nullable values are embedded by the `jsFalsy*`/`jsOr*` helpers:
  `""`, `0`, `null`/`undefined` and `NaN` (a failed parse) are falsy.
-/

namespace BBA

/-! ### JavaScript string primitives -/

/-- `s.toLowerCase()` (ASCII folding, as `Char.toLower`). -/
def jsLower (s : String) : String := String.mk (s.data.map Char.toLower)

/-- `s.trim()`: strip whitespace from both ends. -/
def jsTrim (s : String) : String :=
  String.mk (((s.data.dropWhile Char.isWhitespace).reverse.dropWhile Char.isWhitespace).reverse)

/-- Does `needle` occur at the head of `hay`? -/
def startsWithSeq : List Char → List Char → Bool
  | [], _ => true
  | _ :: _, [] => false
  | a :: as, b :: bs => a == b && startsWithSeq as bs

/-- Does `needle` occur contiguously anywhere in `hay`? -/
def containsSeq (needle : List Char) : List Char → Bool
  | [] => needle.isEmpty
  | c :: t => startsWithSeq needle (c :: t) || containsSeq needle t

/-- `s.includes(sub)`. -/
def jsIncludes (s sub : String) : Bool := containsSeq sub.data s.data

/-- `s.toLowerCase().trim()`, the normal form used by the exact
comparisons in the source. -/
def normName (s : String) : String := jsTrim (jsLower s)

/-- All suffixes of a character list (including itself and `[]`). -/
def tailsOf : List Char → List (List Char)
  | [] => [[]]
  | c :: ts => (c :: ts) :: tailsOf ts

/-- Postgres `LIKE`, case-insensitively (`ILIKE`): `%` matches any
sequence, `_` any single character, other characters match up to
ASCII case.  Structural recursion on the pattern. -/
def likeCI (ps : List Char) : List Char → Bool :=
  match ps with
  | [] => fun ts => ts.isEmpty
  | p :: ps =>
    if p = '%' then fun ts => (tailsOf ts).any (likeCI ps)
    else fun ts =>
      match ts with
      | [] => false
      | c :: ts' => (if p = '_' then true else p.toLower == c.toLower) && likeCI ps ts'

/-- `column ILIKE pattern` on strings. -/
def ilikeStr (pattern text : String) : Bool := likeCI pattern.data text.data

/-- The pattern contains no `LIKE` wildcard. -/
def noWild (cs : List Char) : Bool := cs.all (fun c => !(c == '%' || c == '_'))

/-! ### JavaScript truthiness helpers -/

/-- `s || d` for strings (`""` is falsy). -/
def jsFalsyStr (s d : String) : String := if s = "" then d else s

/-- `o || d` for an optional string (`undefined` and `""` are falsy). -/
def jsOrOptStr (o : Option String) (d : String) : String :=
  match o with
  | none => d
  | some s => jsFalsyStr s d

/-- `a || b` for nullable ids (a present id is truthy). -/
def jsOrOpt (a b : Option Nat) : Option Nat :=
  match a with
  | some x => some x
  | none => b

/-- `parseInt(s) || d`: `NaN` (`none`) and `0` both fall back to `d`. -/
def jsFalsyInt (o : Option Int) (d : Int) : Int :=
  match o with
  | none => d
  | some v => if v = 0 then d else v

/-- `parseFloat(s) || d`: `NaN` (`none`) and `0` both fall back to `d`. -/
def jsFalsyQ (o : Option ℚ) (d : ℚ) : ℚ :=
  match o with
  | none => d
  | some v => if v = 0 then d else v

/-! ### Numeric parsing (`parseInt` / `parseFloat` on trimmed cells) -/

/-- Value of a digit run. -/
def digitsVal (ds : List Char) : Nat :=
  ds.foldl (fun acc c => acc * 10 + (c.toNat - '0'.toNat)) 0

/-- Unsigned part of `parseInt` (base 10): a leading digit run;
`none` is `NaN`. -/
def parseIntCore (cs : List Char) : Option Int :=
  let ds := cs.takeWhile Char.isDigit
  if ds.isEmpty then none else some (digitsVal ds : Int)

/-- `parseInt(s)` (base 10): optional sign, then a leading digit run;
`none` is `NaN`. -/
def parseIntJS (s : String) : Option Int :=
  match s.data with
  | '-' :: t => (parseIntCore t).map Neg.neg
  | '+' :: t => parseIntCore t
  | cs => parseIntCore cs

/-- Unsigned part of `parseFloat`: integer digits, optional decimal
point and fraction digits; `none` is `NaN`. -/
def parseFloatCore (cs : List Char) : Option ℚ :=
  let ds := cs.takeWhile Char.isDigit
  match cs.dropWhile Char.isDigit with
  | '.' :: t =>
    let fs := t.takeWhile Char.isDigit
    if ds.isEmpty && fs.isEmpty then none
    else some ((digitsVal ds : ℚ) + (digitsVal fs : ℚ) / (10 : ℚ) ^ fs.length)
  | _ => if ds.isEmpty then none else some (digitsVal ds : ℚ)

/-- `parseFloat(s)`: optional sign, integer digits, optional decimal
point and fraction digits; `none` is `NaN`. -/
def parseFloatJS (s : String) : Option ℚ :=
  match s.data with
  | '-' :: t => (parseFloatCore t).map Neg.neg
  | '+' :: t => parseFloatCore t
  | cs => parseFloatCore cs

/-- `s.split(sep)` for a one-character separator (the source only ever
splits on `"\n"` and `","`). -/
def splitOnChar (sep : Char) : List Char → List (List Char)
  | [] => [[]]
  | c :: t =>
    if c = sep then [] :: splitOnChar sep t
    else
      match splitOnChar sep t with
      | [] => [[c]]
      | h :: t' => (c :: h) :: t'

/-- `s.split(sep)` on strings. -/
def splitStr (sep : Char) (s : String) : List String :=
  (splitOnChar sep s.data).map String.mk

/-! ### Data model (src/unnamed/part_000, the types module) -/

/-- A supported currency: the canonical storage currency is USD, the
secondary one Bs. -/
inductive Currency
  | USD
  | Bs
deriving DecidableEq

/-- A catalog product row (snake_case DB columns mapped to the
frontend field names by `getAll`). -/
structure Product where
  id : Nat
  name : String
  quantity : Int
  minStock : Int
  price : ℚ
  category : String
  lastUpdated : Nat
  supplierId : Option Nat
deriving DecidableEq

/-- A supplier row. -/
structure Supplier where
  id : Nat
  name : String
  rif : String
  firstSeen : Nat
deriving DecidableEq

/-- An AI-extracted invoice line item. -/
structure InvoiceItem where
  productName : String
  quantity : Int
  price : ℚ
  confidence : Option ℚ
  originalQuantity : Option Int
  detectedPackSize : Option Int
  category : Option String
deriving DecidableEq

/-- An activity-log row as inserted by `logActivity`. -/
structure LogEntry where
  type : String
  description : String
  amount : Int
deriving DecidableEq

/-- The Supabase store: product, supplier and activity-log rows, the
id assigned to the next inserted row, and the current wall-clock time
(the value every `new Date().toISOString()` of one call observes). -/
structure DB where
  products : List Product
  suppliers : List Supplier
  logs : List LogEntry
  nextId : Nat
  now : Nat
deriving DecidableEq

/-! ### InventoryService operations (src/services/emailService.ts) -/

/-- Supplier rows matched by `.or(rif.eq.<rif>,name.ilike.<name>)` in
`addSupplier` (lines 124-131): exact `rif` equality, or the given name
as an `ILIKE` pattern against the stored name. -/
def supplierMatches (name rif : String) (s : Supplier) : Bool :=
  s.rif == rif || ilikeStr name s.name

/-- The rows the `addSupplier` lookup query returns. -/
def matchingSuppliers (db : DB) (name rif : String) : List Supplier :=
  db.suppliers.filter (supplierMatches name rif)

/-- `InventoryService.addSupplier` (lines 124-155).  The lookup ends
in `.single()`, so an existing row is observed exactly when the query
returns exactly one row; with zero rows, and equally with two or more
rows, `existing` is `null` and a fresh supplier is inserted. -/
def addSupplier (db : DB) (name rif : String) : Supplier × DB :=
  match matchingSuppliers db name rif with
  | [s] => (s, db)
  | _ =>
    let s : Supplier := ⟨db.nextId, name, rif, db.now⟩
    (s, { db with suppliers := db.suppliers ++ [s], nextId := db.nextId + 1 })

/-- The exact-trim predicate of `resolveInvoiceAliases` (line 163). -/
def aliasMatches (itemName : String) (p : Product) : Bool :=
  normName p.name == normName itemName

/-- The per-item rewrite of `resolveInvoiceAliases` (lines 162-169). -/
def resolveItem (products : List Product) (item : InvoiceItem) : InvoiceItem :=
  match products.find? (aliasMatches item.productName) with
  | some existing =>
    { item with
      productName := existing.name
      category := if existing.category = "" then item.category else some existing.category }
  | none => item

/-- `InventoryService.resolveInvoiceAliases` (lines 157-174).  The
whole body is wrapped in `try/catch`; the catalog read is embedded as
an `Except` value, and the `catch` branch returns the input items. -/
def resolveInvoiceAliases (catalogRead : Except String (List Product))
    (items : List InvoiceItem) : List InvoiceItem :=
  match catalogRead with
  | Except.ok products => items.map (resolveItem products)
  | Except.error _ => items

/-- `invoiceCurrency === 'Bs' ? newItem.price / exchangeRate : newItem.price`
(line 189): conversion of an invoice price into the canonical (USD)
storage currency. -/
def toCanonical (amount : ℚ) (cur : Currency) (rate : ℚ) : ℚ :=
  if cur = Currency.Bs then amount / rate else amount

/-- `currency === 'Bs' ? product.price * exchangeRate : product.price`
(src/unnamed/part_001 lines 63 and 223): conversion of a stored price
into the display currency. -/
def toDisplay (amount : ℚ) (cur : Currency) (rate : ℚ) : ℚ :=
  if cur = Currency.Bs then amount * rate else amount

/-- `newItem.productName || "Producto Desconocido"` (line 188). -/
def effectiveName (item : InvoiceItem) : String :=
  jsFalsyStr item.productName "Producto Desconocido"

/-- The catalog lookup of `updateStock` (lines 192-197):
`.ilike('name', newItemName)` with the raw item name as the pattern,
taking the first returned row. -/
def findByIlike (products : List Product) (name : String) : Option Product :=
  products.find? (fun p => ilikeStr name p.name)

/-- One iteration of the item loop of `updateStock` (lines 187-225).
`supplierId` is the id registered in step 1 (or `none`), `supName` is
`supplierInfo?.name || ''`. -/
def processInvoiceItem (supplierId : Option Nat) (cur : Currency) (rate : ℚ)
    (supName : String) (db : DB) (item : InvoiceItem) : DB :=
  let name := effectiveName item
  let priceInUSD := toCanonical item.price cur rate
  match findByIlike db.products name with
  | some existing =>
    { db with
      products := db.products.map fun p =>
        if p.id = existing.id then
          { p with
            quantity := existing.quantity + item.quantity
            price := priceInUSD
            lastUpdated := db.now
            supplierId := jsOrOpt supplierId existing.supplierId }
        else p
      logs := db.logs ++ [⟨"IN", "Factura " ++ supName ++ ": " ++ name, item.quantity⟩] }
  | none =>
    { db with
      products := db.products ++
        [⟨db.nextId, name, item.quantity, 10, priceInUSD,
          jsOrOptStr item.category "General", db.now, supplierId⟩]
      nextId := db.nextId + 1
      logs := db.logs ++
        [⟨"IN", "Nuevo (" ++ jsFalsyStr supName "Manual" ++ "): " ++ name, item.quantity⟩] }

/-- Step 1 of `updateStock` (lines 180-184): register the supplier
when `supplierInfo && supplierInfo.name` is truthy, with
`supplierInfo.rif || 'N/A'`. -/
def registerInvoiceSupplier (db : DB) (supplierInfo : Option (String × String)) :
    Option Nat × DB :=
  match supplierInfo with
  | some (n, r) =>
    if n = "" then (none, db)
    else
      let res := addSupplier db n (jsFalsyStr r "N/A")
      (some res.1.id, res.2)
  | none => (none, db)

/-- `InventoryService.updateStock` (lines 177-228): register the
supplier, then fold the item loop over the invoice items in order. -/
def updateStock (db : DB) (items : List InvoiceItem)
    (supplierInfo : Option (String × String)) (invoiceCurrency : Currency)
    (exchangeRate : ℚ) : DB :=
  let sres := registerInvoiceSupplier db supplierInfo
  let supName := match supplierInfo with | some (n, _) => n | none => ""
  items.foldl (processInvoiceItem sres.1 invoiceCurrency exchangeRate supName) sres.2

/-- `InventoryService.registerStockOut` (lines 230-246). -/
def registerStockOut (db : DB) (productId : Nat) (amount : Int) : DB :=
  match db.products.find? (fun p => p.id == productId) with
  | none => db
  | some product =>
    let newQuantity := max 0 (product.quantity - amount)
    let actualDiff := product.quantity - newQuantity
    if 0 < actualDiff then
      { db with
        products := db.products.map fun p =>
          if p.id = productId then { p with quantity := newQuantity, lastUpdated := db.now }
          else p
        logs := db.logs ++ [⟨"OUT", "Salida Manual: " ++ product.name, actualDiff⟩] }
    else db

/-! ### CSV import (lines 248-293) -/

/-- `cols[i]?.trim()`. -/
def csvCell (cells : List String) (i : Nat) : Option String :=
  (cells.get? i).map jsTrim

/-- `cols[0]?.trim()` (always present under the `cols.length >= 2` guard). -/
def rowName (cells : List String) : String := (csvCell cells 0).getD ""

/-- `parseInt(cols[1]?.trim()) || 0`. -/
def rowQuantity (cells : List String) : Int :=
  jsFalsyInt ((csvCell cells 1).bind parseIntJS) 0

/-- `parseFloat(cols[2]?.trim()) || 0`. -/
def rowPrice (cells : List String) : ℚ :=
  jsFalsyQ ((csvCell cells 2).bind parseFloatJS) 0

/-- `parseInt(cols[3]?.trim()) || 10`. -/
def rowMinStock (cells : List String) : Int :=
  jsFalsyInt ((csvCell cells 3).bind parseIntJS) 10

/-- `cols[4]?.trim() || 'General'`. -/
def rowCategory (cells : List String) : String :=
  jsOrOptStr (csvCell cells 4) "General"

/-- The body of the CSV row loop for one split row (lines 261-288).
Matching and the quantity/price reads use `snapshot`, the product list
fetched once before the loop; writes go to the accumulated store. -/
def processCSVCells (snapshot : List Product) (acc : DB × Nat × Nat)
    (cells : List String) : DB × Nat × Nat :=
  if 2 ≤ cells.length then
    let db := acc.1
    match snapshot.find? (fun p => jsLower p.name == jsLower (rowName cells)) with
    | some existing =>
      ({ db with
          products := db.products.map fun p =>
            if p.id = existing.id then
              { p with
                quantity := existing.quantity + rowQuantity cells
                price := if 0 < rowPrice cells then rowPrice cells else existing.price
                lastUpdated := db.now }
            else p },
       acc.2.1, acc.2.2 + 1)
    | none =>
      ({ db with
          products := db.products ++
            [⟨db.nextId, rowName cells, rowQuantity cells, rowMinStock cells,
              rowPrice cells, rowCategory cells, db.now, none⟩]
          nextId := db.nextId + 1 },
       acc.2.1 + 1, acc.2.2)
  else acc

/-- One iteration over a raw CSV line (lines 256-259): trim, skip
blanks, split on commas. -/
def processCSVLine (snapshot : List Product) (acc : DB × Nat × Nat)
    (line : String) : DB × Nat × Nat :=
  if jsTrim line = "" then acc
  else processCSVCells snapshot acc (splitStr ',' (jsTrim line))

/-- `InventoryService.importFromCSV` (lines 248-293): split on
newlines, skip the header line, fold the row loop, then append the one
summary IMPORT log entry.  Returns the store and `(added, updated)`. -/
def importFromCSV (db : DB) (csvText : String) : DB × Nat × Nat :=
  let lines := (splitStr '\n' csvText).drop 1
  let res := lines.foldl (processCSVLine db.products) (db, 0, 0)
  ({ res.1 with
      logs := res.1.logs ++
        [⟨"IMPORT",
          "Importación CSV: " ++ toString res.2.1 ++ " nuevos, " ++ toString res.2.2 ++ " act.",
          (res.2.1 : Int) + (res.2.2 : Int)⟩] },
   res.2.1, res.2.2)

/-- A `Partial<Product>` as accepted by `updateProductDetails`
(lines 88-106): only `minStock`, `price` and `quantity` are mapped. -/
structure ProductUpdates where
  minStock : Option Int
  price : Option ℚ
  quantity : Option Int
deriving DecidableEq

/-- `InventoryService.updateProductDetails` (lines 88-106): set the
provided columns and `last_updated` on the row with the given id. -/
def updateProductDetails (db : DB) (id : Nat) (u : ProductUpdates) : DB :=
  { db with
    products := db.products.map fun p =>
      if p.id = id then
        { p with
          minStock := u.minStock.getD p.minStock
          price := u.price.getD p.price
          quantity := u.quantity.getD p.quantity
          lastUpdated := db.now }
      else p }

/-- `Scanner.getMatch` (src/unnamed/part_001 lines 472-479): the first
product whose name trim-case-insensitively equals the item name, or
contains it, or is contained in it (one pass, one disjunction). -/
def scannerMatches (itemName : String) (p : Product) : Bool :=
  normName p.name == normName itemName ||
  jsIncludes (jsLower p.name) (jsLower itemName) ||
  jsIncludes (jsLower itemName) (jsLower p.name)

/-- `Scanner.getMatch` over the product snapshot. -/
def getMatch (itemName : String) (existingProducts : List Product) : Option Product :=
  existingProducts.find? (scannerMatches itemName)

/-- Every product row has a non-negative quantity and price (the §3
invariant of the spec). -/
def nonnegProducts (db : DB) : Prop :=
  ∀ p ∈ db.products, 0 ≤ p.quantity ∧ 0 ≤ p.price

instance (db : DB) : Decidable (nonnegProducts db) :=
  List.decidableBAll _ _

/-- The fields of an invoice item that alias resolution must not
touch, bundled for the frame property. -/
def invariantFields (it : InvoiceItem) : Int × ℚ × Option Int × Option Int × Option ℚ :=
  (it.quantity, it.price, it.originalQuantity, it.detectedPackSize, it.confidence)

/-! ### Concrete sample data for witnesses and counterexamples -/

/-- A catalog product named "Harina Pan". -/
def pHarinaPan : Product := ⟨1, "Harina Pan", 5, 10, 2, "Alimentos", 0, none⟩

/-- A catalog product named "Pan", listed after `pHarinaPan`. -/
def pPan : Product := ⟨2, "Pan", 3, 10, 1, "Alimentos", 0, none⟩

/-- A product named "X" with five units in stock. -/
def pX : Product := ⟨1, "X", 5, 10, 1, "General", 0, none⟩

/-- A store holding only `pX`. -/
def dbStockOut : DB := ⟨[pX], [], [], 2, 9⟩

/-- A store holding two suppliers, one with rif J-1 named Acme and one
with rif J-2 named Beta. -/
def dbTwoSuppliers : DB := ⟨[], [⟨1, "Acme", "J-1", 0⟩, ⟨2, "Beta", "J-2", 0⟩], [], 3, 4⟩

/-- An entirely empty store. -/
def dbEmptyStore : DB := ⟨[], [], [], 1, 0⟩

/-- A store holding only `pHarinaPan` at quantity 5. -/
def dbHarina : DB := ⟨[⟨1, "Harina Pan", 5, 10, 2, "General", 0, none⟩], [], [], 2, 7⟩

/-- An invoice item with a negative quantity. -/
def itemNegQty : InvoiceItem := ⟨"X", -1, 1, none, none, none, none⟩

/-- The invoice item "harina pan", quantity 10, of the spec's §8
case-insensitive merge example. -/
def itemHarina : InvoiceItem := ⟨"harina pan", 10, 3, none, none, none, none⟩

/-- An invoice item whose name trim-case-insensitively equals
"Harina Pan" and which carries its own category. -/
def itemAliasW : InvoiceItem := ⟨" HARINA PAN ", 10, 3, none, none, none, some "Otra"⟩

end BBA

namespace BBA

/-! ### Helper lemmas -/

/-- A successful `find?` returns a member satisfying the predicate,
and everything listed before it fails the predicate. -/
theorem find?_eq_some_split {α : Type} (pr : α → Bool) :
    ∀ (l : List α) (a : α), l.find? pr = some a →
      pr a = true ∧ ∃ l1 l2, l = l1 ++ a :: l2 ∧ ∀ b ∈ l1, pr b = false := by
  intro l
  induction l with
  | nil => intro a h; simp [List.find?] at h
  | cons x xs ih =>
    intro a h
    by_cases hx : pr x
    · rw [List.find?_cons_of_pos _ hx] at h
      obtain rfl : x = a := by injection h
      exact ⟨hx, [], xs, rfl, by intro b hb; simp at hb⟩
    · rw [List.find?_cons_of_neg _ (by simpa using hx)] at h
      obtain ⟨hpa, l1, l2, rfl, hall⟩ := ih a h
      refine ⟨hpa, x :: l1, l2, rfl, ?_⟩
      intro b hb
      rcases List.mem_cons.1 hb with rfl | hb
      · simpa using hx
      · exact hall b hb

/-- `find?` only depends on the values of the predicate. -/
theorem find?_pred_congr {α : Type} (p q : α → Bool) (h : ∀ a, p a = q a) :
    ∀ l : List α, l.find? p = l.find? q := by
  intro l
  induction l with
  | nil => rfl
  | cons x xs ih => simp [List.find?, h x, ih]

/-- A wildcard-free `ILIKE` pattern matches exactly the texts equal to
it up to case. -/
theorem likeCI_of_noWild (ps : List Char) (h : noWild ps = true) :
    ∀ ts : List Char, likeCI ps ts = (ps.map Char.toLower == ts.map Char.toLower) := by
  induction ps with
  | nil => intro ts; cases ts <;> rfl
  | cons p ps ih =>
    rw [noWild, List.all_cons, Bool.and_eq_true] at h
    obtain ⟨h1, h2⟩ := h
    rw [Bool.not_eq_true', Bool.or_eq_false_iff] at h1
    have hpct : ¬ p = '%' := by simpa using h1.1
    have hund : ¬ p = '_' := by simpa using h1.2
    intro ts
    cases ts with
    | nil =>
      simp only [likeCI, if_neg hpct]
      rfl
    | cons c ts' =>
      simp only [likeCI, if_neg hpct, if_neg hund, List.map]
      rw [ih h2 ts']
      rfl

/-- `addSupplier` never touches the product rows. -/
theorem addSupplier_products (db : DB) (n r : String) :
    (addSupplier db n r).2.products = db.products := by
  unfold addSupplier
  split <;> rfl

/-- Step 1 of `updateStock` never touches the product rows. -/
theorem registerInvoiceSupplier_products (db : DB) (sup : Option (String × String)) :
    (registerInvoiceSupplier db sup).2.products = db.products := by
  unfold registerInvoiceSupplier
  rcases sup with _ | ⟨n, r⟩
  · rfl
  · by_cases hn : n = ""
    · simp [hn]
    · simp [hn, addSupplier_products]

/-- `nonnegProducts` only depends on the product rows. -/
theorem nonnegProducts_of_products_eq {db1 db2 : DB} (h : db2.products = db1.products)
    (hdb : nonnegProducts db1) : nonnegProducts db2 := by
  intro p hp
  exact hdb p (h ▸ hp)

/-- The canonical conversion of a non-negative amount at a positive
rate is non-negative. -/
theorem toCanonical_nonneg (x rate : ℚ) (cur : Currency) (hx : 0 ≤ x) (hr : 0 < rate) :
    0 ≤ toCanonical x cur rate := by
  unfold toCanonical
  split
  · exact div_nonneg hx hr.le
  · exact hx

/-- A fold preserves an invariant preserved by each step. -/
theorem foldl_inv {α β : Type} (f : β → α → β) (P : β → Prop) (Q : α → Prop)
    (hf : ∀ b a, P b → Q a → P (f b a)) :
    ∀ (l : List α), (∀ a ∈ l, Q a) → ∀ b, P b → P (l.foldl f b) := by
  intro l
  induction l with
  | nil => intro _ b hb; exact hb
  | cons x xs ih =>
    intro hl b hb
    exact ih (fun a ha => hl a (List.mem_cons_of_mem _ ha)) _
      (hf b x hb (hl x (List.mem_cons_self _ _)))

/-- `resolveItem` preserves every field other than `productName` and
`category`. -/
theorem resolveItem_invariantFields (products : List Product) (it : InvoiceItem) :
    invariantFields (resolveItem products it) = invariantFields it := by
  unfold resolveItem
  cases products.find? (aliasMatches it.productName) <;> rfl

/-! ### Claim theorems -/

/-- C8: if the catalog read fails during `resolveInvoiceAliases`, the
function returns the original items unmodified and no exception
escapes to its caller (the `catch` branch returns the input list). -/
theorem resolveInvoiceAliases_error (e : String) (items : List InvoiceItem) :
    resolveInvoiceAliases (Except.error e) items = items := rfl

/-- C9: for every amount and positive rate, the canonical conversion
(identity for USD, division by the rate for Bs) and the display
conversion (identity for USD, multiplication by the rate for Bs) are
mutual inverses. -/
theorem currency_roundtrip (x rate : ℚ) (cur : Currency) (h : 0 < rate) :
    toDisplay (toCanonical x cur rate) cur rate = x ∧
    toCanonical (toDisplay x cur rate) cur rate = x := by
  have hne : rate ≠ 0 := ne_of_gt h
  cases cur with
  | USD => exact ⟨rfl, rfl⟩
  | Bs =>
    simp only [toCanonical, toDisplay, if_pos rfl]
    exact ⟨div_mul_cancel₀ x hne, mul_div_cancel_right₀ x hne⟩

/-- Witness for C9 at x = 5, rate = 2, currency Bs. -/
theorem currency_roundtrip_witness :
    toDisplay (toCanonical 5 Currency.Bs 2) Currency.Bs 2 = 5 ∧
    toCanonical (toDisplay 5 Currency.Bs 2) Currency.Bs 2 = 5 :=
  currency_roundtrip 5 2 Currency.Bs (by norm_num)

/-- C10: `resolveInvoiceAliases` returns a list of the same length, in
the same order, and every item's quantity, price, originalQuantity,
detectedPackSize and confidence equal those of the corresponding
input item. -/
theorem resolveInvoiceAliases_frame (cr : Except String (List Product))
    (items : List InvoiceItem) :
    (resolveInvoiceAliases cr items).length = items.length ∧
    ∀ i : Nat, ((resolveInvoiceAliases cr items).get? i).map invariantFields =
      (items.get? i).map invariantFields := by
  cases cr with
  | error e => exact ⟨rfl, fun i => rfl⟩
  | ok products =>
    refine ⟨List.length_map _ _, fun i => ?_⟩
    show ((items.map (resolveItem products)).get? i).map invariantFields =
      (items.get? i).map invariantFields
    rw [List.get?_map]
    cases items.get? i with
    | none => rfl
    | some it => simp [resolveItem_invariantFields]

/-- C7: `resolveInvoiceAliases` rewrites an item exactly when some
catalog product's name equals the item's productName under trimmed
case-insensitive comparison; on the first such match the productName
becomes the catalog name and the category becomes the catalog
category when it is non-empty (else the item keeps its own); items
with no exact-trim match pass through unchanged. -/
theorem resolveInvoiceAliases_spec (products : List Product) (items : List InvoiceItem) :
    resolveInvoiceAliases (Except.ok products) items = items.map (resolveItem products) ∧
    ∀ item : InvoiceItem,
      (∀ ex, products.find? (aliasMatches item.productName) = some ex →
        resolveItem products item =
          { item with
            productName := ex.name
            category := if ex.category = "" then item.category else some ex.category }) ∧
      (products.find? (aliasMatches item.productName) = none →
        resolveItem products item = item) ∧
      (resolveItem products item ≠ item →
        ∃ p ∈ products, normName p.name = normName item.productName) := by
  refine ⟨rfl, fun item => ⟨?_, ?_, ?_⟩⟩
  · intro ex hex
    unfold resolveItem
    rw [hex]
  · intro h
    unfold resolveItem
    rw [h]
  · intro hne
    cases hfind : products.find? (aliasMatches item.productName) with
    | none =>
      exact absurd (by unfold resolveItem; rw [hfind]) hne
    | some ex =>
      have hb := List.find?_some hfind
      unfold aliasMatches at hb
      exact ⟨ex, List.mem_of_find?_eq_some hfind, eq_of_beq hb⟩

/-- Witness for C7: the item " HARINA PAN " is rewritten to the
catalog row "Harina Pan" and takes its non-empty category. -/
theorem resolveInvoiceAliases_spec_witness :
    resolveItem [pHarinaPan] itemAliasW =
      { itemAliasW with productName := "Harina Pan", category := some "Alimentos" } := by
  have h := ((resolveInvoiceAliases_spec [pHarinaPan] []).2 itemAliasW).1 pHarinaPan (by decide)
  rw [h]
  decide

/-- C2 (counterexample): with catalog ["Harina Pan", "Pan"] and search
name "Pan", the scanner's `getMatch` returns "Harina Pan" (a merely
substring-related earlier candidate) even though "Pan" is an exact
trim-case-insensitive match, so exact equality is not preferred; and
`updateStock`'s catalog search finds nothing for the name "Harina"
against the catalog ["Harina Pan"] even though the two names are
substring-related, so that search is not substring-tolerant. -/
theorem getMatch_counterexample :
    (normName pPan.name == normName "Pan") = true ∧
    getMatch "Pan" [pHarinaPan, pPan] = some pHarinaPan ∧
    pHarinaPan ≠ pPan ∧
    (normName pHarinaPan.name == normName "Pan") = false ∧
    jsIncludes (jsLower pHarinaPan.name) (jsLower "Harina") = true ∧
    findByIlike [pHarinaPan] "Harina" = none := by decide

/-- C2 (amended): `getMatch` returns the first candidate in catalog
order satisfying exact trim-case-insensitive equality OR bidirectional
substring containment, with no precedence of exact matches over
substring matches; and `updateStock`'s catalog search matches with the
item name as an `ILIKE` pattern, which for a wildcard-free name is
exact case-insensitive (untrimmed) equality, not substring
containment. -/
theorem getMatch_amended_spec (name : String) (products : List Product)
    (h : noWild name.data = true) :
    (∀ p, getMatch name products = some p →
      scannerMatches name p = true ∧
      ∃ l1 l2, products = l1 ++ p :: l2 ∧ ∀ q ∈ l1, scannerMatches name q = false) ∧
    findByIlike products name =
      products.find? (fun p => name.data.map Char.toLower == p.name.data.map Char.toLower) := by
  constructor
  · intro p hp
    exact find?_eq_some_split _ _ _ hp
  · exact find?_pred_congr _ _ (fun p => likeCI_of_noWild name.data h p.name.data) products

/-- Witness for the amended C2 at the concrete catalog of the
counterexample. -/
theorem getMatch_amended_spec_witness :
    noWild ("Pan".data) = true ∧
    findByIlike [pHarinaPan, pPan] "Pan" =
      [pHarinaPan, pPan].find?
        (fun p => "Pan".data.map Char.toLower == p.name.data.map Char.toLower) :=
  ⟨by decide, (getMatch_amended_spec "Pan" [pHarinaPan, pPan] (by decide)).2⟩

/-- C1: for every invoice item processed by the item loop of
`updateStock`: when the catalog search finds a product, that product's
quantity becomes its existing quantity plus the item quantity, its
price is overwritten with the canonical-currency price, its
lastUpdated becomes the current time, its supplierId becomes the
registered supplier id when one was registered and otherwise stays the
existing supplierId, no product is created, every other product row is
unchanged, and one IN log entry with the item quantity as delta is
appended; when the search finds nothing, exactly one new product is
created with quantity = item quantity, minStock = 10, price = the
canonical-currency price, category = the item category or "General"
and supplierId = the registered supplier id or none, and one IN log
entry with the item quantity as delta is appended. -/
theorem updateStock_item_spec (sid : Option Nat) (cur : Currency) (rate : ℚ)
    (supName : String) (db : DB) (item : InvoiceItem) :
    (∀ ex, findByIlike db.products (effectiveName item) = some ex →
      (processInvoiceItem sid cur rate supName db item).products =
        db.products.map (fun p =>
          if p.id = ex.id then
            { p with
              quantity := ex.quantity + item.quantity
              price := toCanonical item.price cur rate
              lastUpdated := db.now
              supplierId := jsOrOpt sid ex.supplierId }
          else p) ∧
      (processInvoiceItem sid cur rate supName db item).products.length =
        db.products.length ∧
      { ex with
        quantity := ex.quantity + item.quantity
        price := toCanonical item.price cur rate
        lastUpdated := db.now
        supplierId := jsOrOpt sid ex.supplierId } ∈
        (processInvoiceItem sid cur rate supName db item).products ∧
      (∀ p ∈ db.products, p.id ≠ ex.id →
        p ∈ (processInvoiceItem sid cur rate supName db item).products) ∧
      (processInvoiceItem sid cur rate supName db item).logs =
        db.logs ++ [⟨"IN", "Factura " ++ supName ++ ": " ++ effectiveName item,
          item.quantity⟩]) ∧
    (findByIlike db.products (effectiveName item) = none →
      (processInvoiceItem sid cur rate supName db item).products =
        db.products ++ [⟨db.nextId, effectiveName item, item.quantity, 10,
          toCanonical item.price cur rate, jsOrOptStr item.category "General",
          db.now, sid⟩] ∧
      (processInvoiceItem sid cur rate supName db item).logs =
        db.logs ++ [⟨"IN", "Nuevo (" ++ jsFalsyStr supName "Manual" ++ "): " ++
          effectiveName item, item.quantity⟩]) := by
  constructor
  · intro ex hex
    have hmem : ex ∈ db.products := List.mem_of_find?_eq_some hex
    have hproducts : (processInvoiceItem sid cur rate supName db item).products =
        db.products.map (fun p =>
          if p.id = ex.id then
            { p with
              quantity := ex.quantity + item.quantity
              price := toCanonical item.price cur rate
              lastUpdated := db.now
              supplierId := jsOrOpt sid ex.supplierId }
          else p) := by
      simp only [processInvoiceItem]
      rw [hex]
    have hlogs : (processInvoiceItem sid cur rate supName db item).logs =
        db.logs ++ [⟨"IN", "Factura " ++ supName ++ ": " ++ effectiveName item,
          item.quantity⟩] := by
      simp only [processInvoiceItem]
      rw [hex]
    refine ⟨hproducts, ?_, ?_, ?_, hlogs⟩
    · rw [hproducts, List.length_map]
    · rw [hproducts]
      have := List.mem_map_of_mem (fun p =>
        if p.id = ex.id then
          { p with
            quantity := ex.quantity + item.quantity
            price := toCanonical item.price cur rate
            lastUpdated := db.now
            supplierId := jsOrOpt sid ex.supplierId }
        else p) hmem
      simpa using this
    · intro p hp hne
      rw [hproducts]
      have := List.mem_map_of_mem (fun p =>
        if p.id = ex.id then
          { p with
            quantity := ex.quantity + item.quantity
            price := toCanonical item.price cur rate
            lastUpdated := db.now
            supplierId := jsOrOpt sid ex.supplierId }
        else p) hp
      simpa [if_neg hne] using this
  · intro hnone
    constructor
    · simp only [processInvoiceItem]
      rw [hnone]
    · simp only [processInvoiceItem]
      rw [hnone]

/-- Witness for C1: merging the invoice item "harina pan" (quantity
10, price 3) into a catalog holding "Harina Pan" at quantity 5 yields
quantity 15, overwritten price 3, and one IN log entry of delta 10
(the spec's §8 example). -/
theorem updateStock_item_spec_witness :
    (processInvoiceItem none Currency.USD 1 "" dbHarina itemHarina).products =
      [⟨1, "Harina Pan", 15, 10, 3, "General", 7, none⟩] ∧
    (processInvoiceItem none Currency.USD 1 "" dbHarina itemHarina).logs =
      [⟨"IN", "Factura : harina pan", 10⟩] := by
  have h := (updateStock_item_spec none Currency.USD 1 "" dbHarina itemHarina).1
    ⟨1, "Harina Pan", 5, 10, 2, "General", 0, none⟩ (by decide)
  constructor
  · rw [h.1]; decide
  · rw [h.2.2.2.2]; decide

/-- C3 (counterexample): at quantity 5 and amount -1, the claim
predicts new quantity max(0, 5 - (-1)) = 6 and an OUT log entry with
the non-zero clamped delta, but `registerStockOut` leaves the store
entirely unchanged and logs nothing (the code only mutates when the
delta is strictly positive, and for a negative amount the delta is
negative). -/
theorem registerStockOut_counterexample :
    registerStockOut dbStockOut 1 (-1) = dbStockOut ∧
    (registerStockOut dbStockOut 1 (-1)).logs = [] ∧
    max 0 ((5 : Int) - (-1)) = 6 ∧
    dbStockOut.products.map Product.quantity = [5] := by decide

/-- C3 (amended): for a product with non-negative quantity and a
non-negative amount, `registerStockOut` clamps the new quantity at
zero (so quantity never becomes negative, including over-withdrawal),
the logged delta equals min(amount, quantity), a zero delta mutates
and logs nothing, and a positive delta updates exactly the target row
and appends one OUT entry carrying the clamped delta. -/
theorem registerStockOut_spec (db : DB) (pid : Nat) (a : Int) (p : Product)
    (hp : db.products.find? (fun q => q.id == pid) = some p)
    (hq : 0 ≤ p.quantity) (ha : 0 ≤ a) :
    0 ≤ max 0 (p.quantity - a) ∧
    p.quantity - max 0 (p.quantity - a) = min a p.quantity ∧
    0 ≤ p.quantity - max 0 (p.quantity - a) ∧
    (p.quantity - max 0 (p.quantity - a) = 0 → registerStockOut db pid a = db) ∧
    (0 < p.quantity - max 0 (p.quantity - a) →
      (registerStockOut db pid a).products =
        db.products.map (fun q =>
          if q.id = pid then
            { q with quantity := max 0 (p.quantity - a), lastUpdated := db.now }
          else q) ∧
      (registerStockOut db pid a).logs =
        db.logs ++ [⟨"OUT", "Salida Manual: " ++ p.name,
          p.quantity - max 0 (p.quantity - a)⟩]) := by
  refine ⟨le_max_left _ _, by omega, by omega, ?_, ?_⟩
  · intro h0
    unfold registerStockOut
    rw [hp]
    simp only [if_neg (by omega : ¬ 0 < p.quantity - max 0 (p.quantity - a))]
  · intro hpos
    constructor
    · unfold registerStockOut
      rw [hp]
      simp only [if_pos hpos]
    · unfold registerStockOut
      rw [hp]
      simp only [if_pos hpos]

/-- Witness for the amended C3: withdrawing 7 from the product "X" at
quantity 5 clamps to 0 and logs an OUT delta of 5. -/
theorem registerStockOut_spec_witness :
    (registerStockOut dbStockOut 1 7).products.map Product.quantity = [0] ∧
    (registerStockOut dbStockOut 1 7).logs = [⟨"OUT", "Salida Manual: X", 5⟩] := by
  have h := (registerStockOut_spec dbStockOut 1 7 pX (by decide) (by decide)
    (by decide)).2.2.2.2 (by decide)
  constructor
  · rw [h.1]; decide
  · rw [h.2]; decide


/-- When the lookup returns exactly one supplier row, `addSupplier`
returns it and changes nothing. -/
theorem addSupplier_of_single (db : DB) (n r : String) (s : Supplier)
    (h : matchingSuppliers db n r = [s]) : addSupplier db n r = (s, db) := by
  unfold addSupplier
  rw [h]

/-- When the lookup returns no supplier row, `addSupplier` inserts one
fresh record and returns it. -/
theorem addSupplier_of_none (db : DB) (n r : String)
    (h : matchingSuppliers db n r = []) :
    addSupplier db n r =
      (⟨db.nextId, n, r, db.now⟩,
       { db with
          suppliers := db.suppliers ++ [⟨db.nextId, n, r, db.now⟩]
          nextId := db.nextId + 1 }) := by
  unfold addSupplier
  rw [h]

/-- C5 (counterexample): a store holding a supplier named "Acme" with
rif J-1 and another named "Beta" with rif J-2 makes the lookup for
("Acme", "J-2") match two rows, so `.single()` yields no row and
`addSupplier` inserts a third record (id 3) instead of returning an
existing one, even though a record with the given rif exists. -/
theorem addSupplier_counterexample :
    (matchingSuppliers dbTwoSuppliers "Acme" "J-2").length = 2 ∧
    (addSupplier dbTwoSuppliers "Acme" "J-2").2.suppliers.length = 3 ∧
    (addSupplier dbTwoSuppliers "Acme" "J-2").1.id = 3 ∧
    ∀ s ∈ dbTwoSuppliers.suppliers, s.id ≠ 3 := by decide

/-- C5 (amended): provided at most one stored supplier matches the
given (name, rif) — by exact rif equality or case-insensitive name
match — `addSupplier` returns the unique matching record unmutated and
creates nothing when one exists, creates exactly one new record when
none exists, and is idempotent: a second call with the same (name,
rif) returns the same supplier and leaves the store unchanged, so the
two calls add at most one record in total.  (When two or more stored
records match, the single-row lookup yields nothing and a duplicate is
inserted instead.) -/
theorem addSupplier_spec (db : DB) (name rif : String)
    (h : (matchingSuppliers db name rif).length ≤ 1) :
    (∀ s, matchingSuppliers db name rif = [s] → addSupplier db name rif = (s, db)) ∧
    (matchingSuppliers db name rif = [] →
      (addSupplier db name rif).1 = ⟨db.nextId, name, rif, db.now⟩ ∧
      (addSupplier db name rif).2.suppliers =
        db.suppliers ++ [⟨db.nextId, name, rif, db.now⟩]) ∧
    (addSupplier (addSupplier db name rif).2 name rif).1 = (addSupplier db name rif).1 ∧
    (addSupplier (addSupplier db name rif).2 name rif).2 = (addSupplier db name rif).2 ∧
    (addSupplier db name rif).2.suppliers.length ≤ db.suppliers.length + 1 := by
  rcases hm : matchingSuppliers db name rif with _ | ⟨s, tl⟩
  · have hadd := addSupplier_of_none db name rif hm
    have hm1 : matchingSuppliers (addSupplier db name rif).2 name rif =
        [⟨db.nextId, name, rif, db.now⟩] := by
      rw [hadd]
      unfold matchingSuppliers at hm ⊢
      rw [List.filter_append, hm]
      simp [supplierMatches]
    have hadd2 := addSupplier_of_single _ name rif _ hm1
    refine ⟨?_, ?_, ?_, ?_, ?_⟩
    · intro t ht
      exact absurd ht (by simp)
    · intro _
      rw [hadd]
      exact ⟨rfl, rfl⟩
    · rw [hadd2, hadd]
    · rw [hadd2]
    · rw [hadd]
      simp
  · rcases tl with _ | ⟨t, tl⟩
    · have hadd := addSupplier_of_single db name rif s hm
      refine ⟨?_, ?_, ?_, ?_, ?_⟩
      · intro t ht
        obtain rfl : s = t := by injection ht
        exact hadd
      · intro h0
        exact absurd h0 (by simp)
      · rw [hadd, hadd]
      · rw [hadd, hadd]
      · rw [hadd]
        simp
    · rw [hm] at h
      simp at h

/-- Witness for the amended C5: registering ("Acme", "J-1") twice in
an empty store returns the same supplier both times and adds exactly
one record. -/
theorem addSupplier_spec_witness :
    (addSupplier (addSupplier dbEmptyStore "Acme" "J-1").2 "Acme" "J-1").1 =
      (addSupplier dbEmptyStore "Acme" "J-1").1 ∧
    (addSupplier (addSupplier dbEmptyStore "Acme" "J-1").2 "Acme" "J-1").2 =
      (addSupplier dbEmptyStore "Acme" "J-1").2 ∧
    (addSupplier dbEmptyStore "Acme" "J-1").2.suppliers.length ≤
      dbEmptyStore.suppliers.length + 1 := by
  have h := addSupplier_spec dbEmptyStore "Acme" "J-1" (by decide)
  exact ⟨h.2.2.1, h.2.2.2.1, h.2.2.2.2⟩

/-- C6 (counterexample): importing the row "X,1,1,0,Cat" against an
empty catalog stores minStock 10 even though the minStock column "0"
parses successfully to 0 — `parseInt(...) || 10` treats an explicit 0
as missing — so the new product is not created with the parsed values
verbatim. -/
theorem importFromCSV_counterexample :
    parseIntJS "0" = some 0 ∧
    (importFromCSV dbEmptyStore "name,quantity\nX,1,1,0,Cat").1.products =
      [⟨1, "X", 1, 10, 1, "Cat", 0, none⟩] := by decide

/-- C6 (amended): for a split CSV row with at least two cells, when a
snapshot product matches the row name under exact case-insensitive
equality, the import adds the parsed quantity to the snapshot quantity
and replaces the price only when the parsed price is strictly
positive; when no product matches, it creates one new product with
the parsed name, quantity, price and category, except that zero or
unparseable numeric cells fall back to their defaults (quantity 0,
price 0, minStock 10 — an explicit minStock of 0 also becomes 10 —
and empty or missing category becomes "General"). -/
theorem processCSVCells_spec (snapshot : List Product) (db : DB) (added updated : Nat)
    (cells : List String) (hlen : 2 ≤ cells.length) :
    (∀ ex, snapshot.find? (fun p => jsLower p.name == jsLower (rowName cells)) = some ex →
      (processCSVCells snapshot (db, added, updated) cells).1.products =
        db.products.map (fun p =>
          if p.id = ex.id then
            { p with
              quantity := ex.quantity + rowQuantity cells
              price := if 0 < rowPrice cells then rowPrice cells else ex.price
              lastUpdated := db.now }
          else p) ∧
      (processCSVCells snapshot (db, added, updated) cells).2 = (added, updated + 1)) ∧
    (snapshot.find? (fun p => jsLower p.name == jsLower (rowName cells)) = none →
      (processCSVCells snapshot (db, added, updated) cells).1.products =
        db.products ++ [⟨db.nextId, rowName cells, rowQuantity cells, rowMinStock cells,
          rowPrice cells, rowCategory cells, db.now, none⟩] ∧
      (processCSVCells snapshot (db, added, updated) cells).2 = (added + 1, updated)) := by
  constructor
  · intro ex hex
    constructor
    · simp only [processCSVCells, if_pos hlen]
      rw [hex]
    · simp only [processCSVCells, if_pos hlen]
      rw [hex]
  · intro hnone
    constructor
    · simp only [processCSVCells, if_pos hlen]
      rw [hnone]
    · simp only [processCSVCells, if_pos hlen]
      rw [hnone]

/-- Witness for the amended C6: the row "Arroz,20,2,5,Alimentos"
against an empty snapshot creates the product Arroz with quantity 20,
price 2, minStock 5 and category "Alimentos" (the spec's §8 CSV
example with an integer price column). -/
theorem processCSVCells_spec_witness :
    (processCSVCells [] (dbEmptyStore, 0, 0) ["Arroz", "20", "2", "5", "Alimentos"]).1.products =
      [⟨1, "Arroz", 20, 5, 2, "Alimentos", 0, none⟩] ∧
    (processCSVCells [] (dbEmptyStore, 0, 0) ["Arroz", "20", "2", "5", "Alimentos"]).2 =
      (1, 0) := by
  have h := (processCSVCells_spec [] dbEmptyStore 0 0
    ["Arroz", "20", "2", "5", "Alimentos"] (by decide)).2 rfl
  constructor
  · rw [h.1]
    decide
  · exact h.2


/-- One `updateStock` item step preserves non-negativity of all
quantities and prices, provided the item is non-negative and the rate
is positive. -/
theorem processInvoiceItem_nonneg (sid : Option Nat) (cur : Currency) (rate : ℚ)
    (supName : String) (hr : 0 < rate) (db : DB) (item : InvoiceItem)
    (hdb : nonnegProducts db) (hit : 0 ≤ item.quantity ∧ 0 ≤ item.price) :
    nonnegProducts (processInvoiceItem sid cur rate supName db item) := by
  have hcanon : 0 ≤ toCanonical item.price cur rate :=
    toCanonical_nonneg item.price rate cur hit.2 hr
  cases hfind : findByIlike db.products (effectiveName item) with
  | some ex =>
    have hprod : (processInvoiceItem sid cur rate supName db item).products =
        db.products.map (fun p =>
          if p.id = ex.id then
            { p with
              quantity := ex.quantity + item.quantity
              price := toCanonical item.price cur rate
              lastUpdated := db.now
              supplierId := jsOrOpt sid ex.supplierId }
          else p) := by
      simp only [processInvoiceItem]
      rw [hfind]
    intro p hp
    rw [hprod] at hp
    rcases List.mem_map.1 hp with ⟨q, hq, rfl⟩
    by_cases hid : q.id = ex.id
    · rw [if_pos hid]
      exact ⟨add_nonneg (hdb ex (List.mem_of_find?_eq_some hfind)).1 hit.1, hcanon⟩
    · rw [if_neg hid]
      exact hdb q hq
  | none =>
    have hprod : (processInvoiceItem sid cur rate supName db item).products =
        db.products ++ [⟨db.nextId, effectiveName item, item.quantity, 10,
          toCanonical item.price cur rate, jsOrOptStr item.category "General",
          db.now, sid⟩] := by
      simp only [processInvoiceItem]
      rw [hfind]
    intro p hp
    rw [hprod] at hp
    rcases List.mem_append.1 hp with hp | hp
    · exact hdb p hp
    · rw [List.mem_singleton] at hp
      subst hp
      exact ⟨hit.1, hcanon⟩

/-- One CSV row step preserves non-negativity, provided the snapshot
is non-negative and the parsed quantity and price of the row are
non-negative. -/
theorem processCSVLine_nonneg (snapshot : List Product)
    (hsnap : ∀ p ∈ snapshot, 0 ≤ p.quantity ∧ 0 ≤ p.price)
    (acc : DB × Nat × Nat) (line : String) (hacc : nonnegProducts acc.1)
    (hline : 0 ≤ rowQuantity (splitStr ',' (jsTrim line)) ∧
      0 ≤ rowPrice (splitStr ',' (jsTrim line))) :
    nonnegProducts (processCSVLine snapshot acc line).1 := by
  unfold processCSVLine
  by_cases hb : jsTrim line = ""
  · rw [if_pos hb]
    exact hacc
  · rw [if_neg hb]
    unfold processCSVCells
    by_cases hlen : 2 ≤ (splitStr ',' (jsTrim line)).length
    · rw [if_pos hlen]
      cases hfind : snapshot.find?
        (fun p => jsLower p.name == jsLower (rowName (splitStr ',' (jsTrim line)))) with
      | some ex =>
        intro p hp
        rcases List.mem_map.1 hp with ⟨q, hq, rfl⟩
        by_cases hid : q.id = ex.id
        · rw [if_pos hid]
          have hex := hsnap ex (List.mem_of_find?_eq_some hfind)
          refine ⟨add_nonneg hex.1 hline.1, ?_⟩
          by_cases hpr : 0 < rowPrice (splitStr ',' (jsTrim line))
          · rw [if_pos hpr]
            exact hline.2
          · rw [if_neg hpr]
            exact hex.2
        · rw [if_neg hid]
          exact hacc q hq
      | none =>
        intro p hp
        rcases List.mem_append.1 hp with hp | hp
        · exact hacc p hp
        · rw [List.mem_singleton] at hp
          subst hp
          exact ⟨hline.1, hline.2⟩
    · rw [if_neg hlen]
      exact hacc

/-- `registerStockOut` preserves non-negativity unconditionally: the
new quantity is clamped at zero and prices are untouched. -/
theorem registerStockOut_nonneg (db : DB) (pid : Nat) (a : Int)
    (hdb : nonnegProducts db) : nonnegProducts (registerStockOut db pid a) := by
  cases hfind : db.products.find? (fun p => p.id == pid) with
  | none =>
    have hres : registerStockOut db pid a = db := by
      unfold registerStockOut
      rw [hfind]
    rw [hres]
    exact hdb
  | some product =>
    by_cases hdiff : 0 < product.quantity - max 0 (product.quantity - a)
    · have hres : (registerStockOut db pid a).products =
          db.products.map (fun p =>
            if p.id = pid then
              { p with quantity := max 0 (product.quantity - a), lastUpdated := db.now }
            else p) := by
        unfold registerStockOut
        rw [hfind]
        simp only [if_pos hdiff]
      intro p hp
      rw [hres] at hp
      rcases List.mem_map.1 hp with ⟨q, hq, rfl⟩
      by_cases hid : q.id = pid
      · rw [if_pos hid]
        exact ⟨le_max_left _ _, (hdb q hq).2⟩
      · rw [if_neg hid]
        exact hdb q hq
    · have hres : registerStockOut db pid a = db := by
        unfold registerStockOut
        rw [hfind]
        simp only [if_neg hdiff]
      rw [hres]
      exact hdb

/-- C4 (counterexample): starting from an empty (hence non-negative)
store, `updateStock` on an invoice item with quantity -1 creates a
product whose quantity is -1, so the spec's non-negativity invariant
does not hold for arbitrary operation inputs. -/
theorem nonneg_counterexample :
    nonnegProducts dbEmptyStore ∧
    (updateStock dbEmptyStore [itemNegQty] none Currency.USD 1).products.map
      Product.quantity = [-1] ∧
    ¬ nonnegProducts (updateStock dbEmptyStore [itemNegQty] none Currency.USD 1) := by
  decide

/-- C4 (amended): the four mutating operations preserve the
non-negativity of every product quantity and price, provided their
numeric inputs are themselves non-negative: `updateStock` for items
with non-negative quantity and price at a positive exchange rate;
`registerStockOut` unconditionally; `importFromCSV` for rows whose
parsed quantity and price are non-negative; `updateProductDetails`
when the supplied quantity and price updates are non-negative. -/
theorem operations_preserve_nonneg :
    (∀ (db : DB) (items : List InvoiceItem) (sup : Option (String × String))
        (cur : Currency) (rate : ℚ),
      nonnegProducts db → 0 < rate →
      (∀ it ∈ items, 0 ≤ it.quantity ∧ 0 ≤ it.price) →
      nonnegProducts (updateStock db items sup cur rate)) ∧
    (∀ (db : DB) (pid : Nat) (a : Int),
      nonnegProducts db → nonnegProducts (registerStockOut db pid a)) ∧
    (∀ (db : DB) (csv : String),
      nonnegProducts db →
      (∀ line ∈ (splitStr '\n' csv).drop 1,
        0 ≤ rowQuantity (splitStr ',' (jsTrim line)) ∧
        0 ≤ rowPrice (splitStr ',' (jsTrim line))) →
      nonnegProducts (importFromCSV db csv).1) ∧
    (∀ (db : DB) (id : Nat) (u : ProductUpdates),
      nonnegProducts db →
      (∀ v, u.quantity = some v → 0 ≤ v) →
      (∀ v, u.price = some v → 0 ≤ v) →
      nonnegProducts (updateProductDetails db id u)) := by
  refine ⟨?_, registerStockOut_nonneg, ?_, ?_⟩
  · intro db items sup cur rate hdb hr hits
    have hstart : nonnegProducts (registerInvoiceSupplier db sup).2 :=
      nonnegProducts_of_products_eq (registerInvoiceSupplier_products db sup) hdb
    exact foldl_inv _ nonnegProducts (fun it => 0 ≤ it.quantity ∧ 0 ≤ it.price)
      (fun b a hb ha => processInvoiceItem_nonneg _ cur rate _ hr b a hb ha)
      items hits _ hstart
  · intro db csv hdb hlines
    have hfold : nonnegProducts
        (((splitStr '\n' csv).drop 1).foldl (processCSVLine db.products) (db, 0, 0)).1 := by
      have := foldl_inv (processCSVLine db.products)
        (fun acc => nonnegProducts acc.1)
        (fun line => 0 ≤ rowQuantity (splitStr ',' (jsTrim line)) ∧
          0 ≤ rowPrice (splitStr ',' (jsTrim line)))
        (fun b a hb ha => processCSVLine_nonneg db.products hdb b a hb ha)
        ((splitStr '\n' csv).drop 1) hlines (db, 0, 0) hdb
      exact this
    exact nonnegProducts_of_products_eq rfl hfold
  · intro db id u hdb hqu hpu
    intro p hp
    rcases List.mem_map.1 hp with ⟨q, hq, rfl⟩
    by_cases hid : q.id = id
    · rw [if_pos hid]
      constructor
      · rcases hv : u.quantity with _ | v
        · simpa [hv] using (hdb q hq).1
        · simpa [hv] using hqu v hv
      · rcases hv : u.price with _ | v
        · simpa [hv] using (hdb q hq).2
        · simpa [hv] using hpu v hv
    · rw [if_neg hid]
      exact hdb q hq

/-- Witness for the amended C4: each of the four operations applied to
small concrete non-negative inputs yields a non-negative store. -/
theorem operations_preserve_nonneg_witness :
    nonnegProducts (updateStock dbHarina [itemHarina] none Currency.USD 1) ∧
    nonnegProducts (registerStockOut dbStockOut 1 7) ∧
    nonnegProducts (importFromCSV dbEmptyStore "name,quantity\nArroz,20,2,5,Alimentos").1 ∧
    nonnegProducts (updateProductDetails dbStockOut 1 ⟨some 3, some 2, some 4⟩) := by
  have h := operations_preserve_nonneg
  refine ⟨h.1 dbHarina [itemHarina] none Currency.USD 1 (by decide) (by decide) (by decide),
    h.2.1 dbStockOut 1 7 (by decide),
    h.2.2.1 dbEmptyStore "name,quantity\nArroz,20,2,5,Alimentos" (by decide) (by decide),
    h.2.2.2 dbStockOut 1 ⟨some 3, some 2, some 4⟩ (by decide) ?_ ?_⟩
  · intro v hv
    obtain rfl : (4 : Int) = v := by injection hv
    norm_num
  · intro v hv
    obtain rfl : (2 : ℚ) = v := by injection hv
    norm_num

end BBA
